import Mathlib

/-!
Verification of the SQLiteAbstractions repository (rhymu8354/SQLiteAbstractions).

This file gives a shallow embedding of `src/SQLiteDatabase.cpp` — the SQLite
implementation of the `ClusterMemberStore::Database` interface — together with
a model of the external SQLite engine restricted to the statement forms this
code issues, and settles the frozen claims about the specification against it.

Modelling conventions:
  * machine values are modelled with `Int`/`Nat`/`String`/`Bool`; the `real`
    column variant carries its 64-bit IEEE-754 bit pattern as a `Nat`
    (no floating-point arithmetic is modelled or needed by any claim);
  * the SQLite engine is modelled as a state (tables of the `main` and `temp`
    schemas plus an open-transaction flag) with an executable `execSQL`
    transition for exactly the statement shapes the repository generates;
    rowid aliasing, type affinity and NOT NULL constraints are outside the
    model because no generated statement or claim depends on them;
  * fallible engine calls return an explicit error flag, which the C++ code
    under study discards with `(void)` casts — the embedding mirrors that by
    folding over statements while ignoring the flag.
-/

namespace SQLiteAbstractions

/-! ## Value model (ClusterMemberStore `Value` variant) -/

/-- The closed tagged union over column values: Null, Boolean, Integer
(64-bit signed), Real (double, carried as its IEEE-754 bit pattern), and
Text. -/
inductive Value where
  | null
  | boolean (b : Bool)
  | integer (i : Int)
  | real (bits : Nat)
  | text (s : String)
deriving DecidableEq, Repr

/-- The runtime type tag of a `Value`. -/
inductive ValueType where
  | null
  | boolean
  | integer
  | real
  | text
deriving DecidableEq, Repr

/-- The tag queryable at runtime on a `Value`. -/
def Value.getType : Value → ValueType
  | .null => .null
  | .boolean _ => .boolean
  | .integer _ => .integer
  | .real _ => .real
  | .text _ => .text

/-! ## Schema model -/

/-- `ColumnDefinition` from the interface header: column name, engine-level
type name, and whether the column is part of the primary key. -/
structure ColumnDefinition where
  name : String
  type : String
  isKey : Bool
deriving DecidableEq, Repr

/-- `TableDefinition`: ordered sequence of column definitions. -/
structure TableDefinition where
  columnDefinitions : List ColumnDefinition
deriving DecidableEq, Repr

/-- `TableDefinitions`: mapping from table name to definition, modelled as an
association list (table names are unique in a schema). -/
abbrev TableDefinitions := List (String × TableDefinition)

/-- Column names of a column-definition list, in order. -/
def colNames (cols : List ColumnDefinition) : List String :=
  cols.map (fun c => c.name)

/-- The names of the key columns, in order. -/
def keyNames (cols : List ColumnDefinition) : List String :=
  colNames (cols.filter (fun c => c.isKey))

/-! ## SQLite engine model

The repository treats SQLite as an opaque relational executor reached through
`sqlite3_exec`/prepare/step.  The claims under study depend on how the engine
reacts to the exact statements the repository generates, so we model a table
store (rows are positional value lists aligned with the column list), the
`main` and `temp` schemas (`CREATE TEMPORARY TABLE` creates in `temp`;
unqualified name resolution and `DROP TABLE` search `temp` before `main`),
and an explicit open-transaction flag for `BEGIN TRANSACTION`/`COMMIT`. -/

/-- An engine-side table: its columns and its rows in stored order.  Each row
is a list of values positionally aligned with `cols`. -/
structure Table where
  cols : List ColumnDefinition
  rows : List (List Value)
deriving DecidableEq, Repr

/-- One schema (`main` or `temp`): an association list from table name to
table, names unique. -/
abbrev Schema := List (String × Table)

/-- The modelled SQLite engine state. -/
structure EngineState where
  main : Schema
  temp : Schema
  inTxn : Bool
deriving DecidableEq, Repr

/-- Find a table by name in one schema (first match). -/
def findTable? : Schema → String → Option Table
  | [], _ => none
  | (n, t) :: rest, name => if n = name then some t else findTable? rest name

/-- Remove the table with the given name from a schema. -/
def removeTable (l : Schema) (name : String) : Schema :=
  l.filter (fun e => e.1 ≠ name)

/-- Replace the table stored under `name` (no effect when absent). -/
def setTable (l : Schema) (name : String) (t : Table) : Schema :=
  l.map (fun e => if e.1 = name then (e.1, t) else e)

/-- Resolve an unqualified table name the way SQLite does: the `temp` schema
shadows `main`.  Returns the schema it was found in (`true` = `temp`). -/
def lookupTable (s : EngineState) (name : String) : Option (Bool × Table) :=
  match findTable? s.temp name with
  | some t => some (true, t)
  | none =>
    match findTable? s.main name with
    | some t => some (false, t)
    | none => none

/-- The value stored in `row` under the column named `n`, where `row` is
positionally aligned with `cols` (SQLite rejects unknown column names at
compile time, so the fall-through is never reached by an accepted
statement). -/
def colValue : List ColumnDefinition → List Value → String → Value
  | c :: cs, v :: vs, n => if c.name = n then v else colValue cs vs n
  | _, _, _ => Value.null

/-- Evaluate a `SELECT name1,name2,... FROM t` column list against one row. -/
def selectCols (cols : List ColumnDefinition) (row : List Value) (names : List String) : List Value :=
  names.map (colValue cols row)

/-- `true` exactly when `n` occurs in `l`. -/
def strMem (n : String) : List String → Bool
  | [] => false
  | s :: rest => if s = n then true else strMem n rest

/-- `true` exactly when every element of the first list occurs in the second. -/
def allMem : List String → List String → Bool
  | [], _ => true
  | n :: ns, l => strMem n l && allMem ns l

/-- Constraint check for an insert: with a nonempty primary key on `cols`,
the combined row set must be unique on the key projection (SQLite aborts the
whole statement on a violation under the default ON CONFLICT ABORT). -/
def keyConflict (cols : List ColumnDefinition) (rows : List (List Value)) : Prop :=
  keyNames cols ≠ [] ∧ ¬ (rows.map (fun r => selectCols cols r (keyNames cols))).Nodup

instance (cols : List ColumnDefinition) (rows : List (List Value)) :
    Decidable (keyConflict cols rows) :=
  inferInstanceAs (Decidable (_ ∧ _))

/-- The statement shapes issued by `SQLiteDatabase.cpp`, in structured form.
`renderSQL` below reproduces the exact SQL text the C++ code interpolates. -/
inductive SQL where
  | beginTxn
  | commitTxn
  | createTable (inTemp : Bool) (name : String) (cols : List ColumnDefinition)
  | insertSelect (dst : String) (names : List String) (src : String)
  | dropTable (name : String)
  | renameTable (oldName newName : String)
  | addColumn (name : String) (col : ColumnDefinition)
deriving DecidableEq, Repr

/-- Result of executing one statement: the successor engine state and whether
the engine reported an error. -/
structure ExecResult where
  state : EngineState
  error : Bool
deriving DecidableEq, Repr

/-- One step of the modelled engine.  Error cases follow SQLite:
  * `BEGIN` inside a transaction / `COMMIT` outside one is an error;
  * `CREATE TABLE` fails on an existing name, an empty column list (a syntax
    error in SQLite), a duplicate column name, or more than one column
    carrying an inline `PRIMARY KEY` clause;
  * `INSERT INTO dst SELECT names FROM src` fails when either table is
    missing, the select list is empty (syntax error), names a column `src`
    does not have, does not match `dst`'s column count, or the inserted rows
    violate `dst`'s primary-key uniqueness (statement-atomic abort);
  * `DROP TABLE` / `ALTER TABLE` fail when the table is missing, `RENAME TO`
    fails when the target name is taken, and `ADD COLUMN` fails on a
    duplicate column name or an added `PRIMARY KEY` column.
A failed statement leaves the state unchanged; in particular an error inside
an open transaction neither closes nor rolls back that transaction. -/
def execSQL (s : EngineState) : SQL → ExecResult
  | .beginTxn =>
    if s.inTxn then ⟨s, true⟩ else ⟨{ s with inTxn := true }, false⟩
  | .commitTxn =>
    if s.inTxn then ⟨{ s with inTxn := false }, false⟩ else ⟨s, true⟩
  | .createTable inTemp name cols =>
    let schema := if inTemp then s.temp else s.main
    if (findTable? schema name).isSome ∨ cols = [] ∨ ¬ (colNames cols).Nodup
        ∨ 2 ≤ (cols.filter (fun c => c.isKey)).length then
      ⟨s, true⟩
    else
      if inTemp then
        ⟨{ s with temp := s.temp ++ [(name, ⟨cols, []⟩)] }, false⟩
      else
        ⟨{ s with main := s.main ++ [(name, ⟨cols, []⟩)] }, false⟩
  | .insertSelect dst names src =>
    match lookupTable s src with
    | none => ⟨s, true⟩
    | some (_, srcTable) =>
      match lookupTable s dst with
      | none => ⟨s, true⟩
      | some (dstInTemp, dstTable) =>
        if names = [] ∨ allMem names (colNames srcTable.cols) ≠ true
            ∨ names.length ≠ dstTable.cols.length then
          ⟨s, true⟩
        else
          let newRows := srcTable.rows.map (fun r => selectCols srcTable.cols r names)
          if keyConflict dstTable.cols (dstTable.rows ++ newRows) then
            ⟨s, true⟩
          else
            let updated : Table := ⟨dstTable.cols, dstTable.rows ++ newRows⟩
            if dstInTemp then
              ⟨{ s with temp := setTable s.temp dst updated }, false⟩
            else
              ⟨{ s with main := setTable s.main dst updated }, false⟩
  | .dropTable name =>
    match findTable? s.temp name with
    | some _ => ⟨{ s with temp := removeTable s.temp name }, false⟩
    | none =>
      match findTable? s.main name with
      | some _ => ⟨{ s with main := removeTable s.main name }, false⟩
      | none => ⟨s, true⟩
  | .renameTable oldName newName =>
    match findTable? s.temp oldName with
    | some t =>
      if (findTable? s.temp newName).isSome then ⟨s, true⟩
      else ⟨{ s with temp := (removeTable s.temp oldName) ++ [(newName, t)] }, false⟩
    | none =>
      match findTable? s.main oldName with
      | some t =>
        if (findTable? s.main newName).isSome then ⟨s, true⟩
        else ⟨{ s with main := (removeTable s.main oldName) ++ [(newName, t)] }, false⟩
      | none => ⟨s, true⟩
  | .addColumn name col =>
    match lookupTable s name with
    | none => ⟨s, true⟩
    | some (inTemp, t) =>
      if strMem col.name (colNames t.cols) = true ∨ col.isKey then ⟨s, true⟩
      else
        let updated : Table := ⟨t.cols ++ [col], t.rows.map (fun r => r ++ [Value.null])⟩
        if inTemp then
          ⟨{ s with temp := setTable s.temp name updated }, false⟩
        else
          ⟨{ s with main := setTable s.main name updated }, false⟩

/-- Run statements in order, discarding every error flag — exactly what the
C++ `DestroyColumn` loop does with its `(void)ExecuteStatement(...)` calls. -/
def execAllIgnoringErrors (s : EngineState) (stmts : List SQL) : EngineState :=
  stmts.foldl (fun st stmt => (execSQL st stmt).state) s

/-- The per-statement error flags produced by running `stmts` in order. -/
def execErrors (s : EngineState) : List SQL → List Bool
  | [] => []
  | stmt :: rest =>
    let r := execSQL s stmt
    r.error :: execErrors r.state rest

/-! ## `SQLiteDatabase` member functions

`SQLiteDatabase::Impl` holds the connection and the cached `tables`
(`TableDefinitions`).  Each member function below is translated from the
correspondingly named function in `src/SQLiteDatabase.cpp`. -/

/-- Find a cached table definition by name (`impl_->tables.find(tableName)`). -/
def findDef? : TableDefinitions → String → Option TableDefinition
  | [], _ => none
  | (n, d) :: rest, name => if n = name then some d else findDef? rest name

/-- The state of one `SQLiteDatabase` instance: the engine it is connected to
and the cached schema metadata `impl_->tables`. -/
structure SQLiteDatabaseState where
  engine : EngineState
  tables : TableDefinitions
deriving DecidableEq, Repr

/-- `Impl::ReadMetadata` walks `SQLITE_MASTER` (the `main` schema catalog) and
runs `PRAGMA table_info` per table, caching name, declared type and pk flag of
every column.  In the model the engine's catalog for a `main` table is its
column list, so the rebuild maps each `main` table to its definition. -/
def readMetadataTables (e : EngineState) : TableDefinitions :=
  e.main.map (fun entry => (entry.1, ⟨entry.2.cols⟩))

/-- `Impl::ReadMetadata`: clear and rebuild the cache from the live catalog. -/
def readMetadata (db : SQLiteDatabaseState) : SQLiteDatabaseState :=
  { db with tables := readMetadataTables db.engine }

/-- `SQLiteDatabase::Open` (successful case): connect to the engine, then
`ReadMetadata`. -/
def openDatabase (e : EngineState) : SQLiteDatabaseState :=
  readMetadata { engine := e, tables := [] }

/-- `SQLiteDatabase::DescribeTables`: returns the cached snapshot. -/
def describeTables (db : SQLiteDatabaseState) : TableDefinitions :=
  db.tables

/-- `SQLiteDatabase::CreateTable`: emit one `CREATE TABLE name (col type
[ PRIMARY KEY], ...)` statement, ignore the result.  The cache is not
touched. -/
def createTableOp (db : SQLiteDatabaseState) (tableName : String)
    (tableDefinition : TableDefinition) : SQLiteDatabaseState :=
  { db with engine :=
      (execSQL db.engine (.createTable false tableName tableDefinition.columnDefinitions)).state }

/-- `SQLiteDatabase::RenameTable`: emit one `ALTER TABLE old RENAME TO new`,
ignore the result.  The cache is not touched. -/
def renameTableOp (db : SQLiteDatabaseState) (oldTableName newTableName : String) :
    SQLiteDatabaseState :=
  { db with engine := (execSQL db.engine (.renameTable oldTableName newTableName)).state }

/-- `SQLiteDatabase::AddColumn`: emit one `ALTER TABLE name ADD COLUMN ...`,
ignore the result.  The cache is not touched. -/
def addColumnOp (db : SQLiteDatabaseState) (tableName : String)
    (columnDefinition : ColumnDefinition) : SQLiteDatabaseState :=
  { db with engine := (execSQL db.engine (.addColumn tableName columnDefinition)).state }

/-- The statement list `SQLiteDatabase::DestroyColumn` builds, or `none` on
either early return: the cached definition is looked up (absent table:
no-op), the kept columns are those whose name differs from `columnName`
(in original order), and when the named column was found the eight
statements of the copy–rebuild–copy sequence are produced. -/
def keepColumns (tableDefinition : TableDefinition) (columnName : String) :
    List ColumnDefinition :=
  tableDefinition.columnDefinitions.filter (fun c => c.name ≠ columnName)

/-- The column list of the temporary holding table: the kept column names
bare — no type, no key flag — exactly as `keepColumns.str()` interpolates
them into `CREATE TEMPORARY TABLE %s_(%s)`. -/
def bareColumns (keep : List ColumnDefinition) : List ColumnDefinition :=
  keep.map (fun c => ⟨c.name, "", false⟩)

def destroyColumnPlan (tables : TableDefinitions) (tableName columnName : String) :
    Option (List SQL) :=
  match findDef? tables tableName with
  | none => none
  | some tableDefinition =>
    let keep := keepColumns tableDefinition columnName
    if tableDefinition.columnDefinitions.any (fun c => c.name = columnName) then
      some
        [ .beginTxn,
          .createTable true (tableName ++ "_") (bareColumns keep),
          .insertSelect (tableName ++ "_") (colNames keep) tableName,
          .dropTable tableName,
          .createTable false tableName keep,
          .insertSelect tableName (colNames keep) (tableName ++ "_"),
          .dropTable (tableName ++ "_"),
          .commitTxn ]
    else
      none

/-- `SQLiteDatabase::DestroyColumn`: execute the planned statements in order,
discarding every error.  On either early return nothing happens; the cache is
never touched. -/
def destroyColumnOp (db : SQLiteDatabaseState) (tableName columnName : String) :
    SQLiteDatabaseState :=
  match destroyColumnPlan db.tables tableName columnName with
  | none => db
  | some stmts => { db with engine := execAllIgnoringErrors db.engine stmts }

/-- `SQLiteDatabase::DestroyTable`: the function body in the source is empty
— it issues no statement and touches nothing. -/
def destroyTableOp (db : SQLiteDatabaseState) (_tableName : String) : SQLiteDatabaseState :=
  db

/-- A `Blob`: opaque byte sequence. -/
abbrev Blob := List UInt8

/-- `SQLiteDatabase::CreateSnapshot`: the source returns `{}` — the empty
blob — for every store state. -/
def createSnapshot (_db : SQLiteDatabaseState) : Blob :=
  []

/-- The exact SQL text of a recreated column, as interpolated by the C++
(`name << ' ' << type` plus `" PRIMARY KEY"` when flagged). -/
def renderColumn (c : ColumnDefinition) : String :=
  c.name ++ " " ++ c.type ++ (if c.isKey then " PRIMARY KEY" else "")

/-- The exact SQL text the C++ code interpolates for each structured
statement (formats taken verbatim from `SQLiteDatabase.cpp`). -/
def renderSQL : SQL → String
  | .beginTxn => "BEGIN TRANSACTION"
  | .commitTxn => "COMMIT"
  | .createTable true name cols =>
    "CREATE TEMPORARY TABLE " ++ name ++ "(" ++ String.intercalate "," (colNames cols) ++ ")"
  | .createTable false name cols =>
    "CREATE TABLE " ++ name ++ " (" ++ String.intercalate ", " (cols.map renderColumn) ++ ")"
  | .insertSelect dst names src =>
    "INSERT INTO " ++ dst ++ " SELECT " ++ String.intercalate "," names ++ " FROM " ++ src
  | .dropTable name => "DROP TABLE " ++ name
  | .renameTable oldName newName => "ALTER TABLE " ++ oldName ++ " RENAME TO " ++ newName
  | .addColumn name col => "ALTER TABLE " ++ name ++ " ADD COLUMN " ++ renderColumn col

/-- Positional projection of a row onto the columns surviving the destruction
of column `c`: entries at positions whose column is named `c` are dropped,
everything else is kept in place. -/
def keepRow : List ColumnDefinition → List Value → String → List Value
  | col :: cols, v :: vs, c =>
    if col.name = c then keepRow cols vs c else v :: keepRow cols vs c
  | _, _, _ => []

/-- All rows of a table, each positionally projected onto the columns that
survive destroying column `c`. -/
def keptRows (tableDefinition : TableDefinition) (rows : List (List Value)) (c : String) :
    List (List Value) :=
  rows.map (fun r => keepRow tableDefinition.columnDefinitions r c)

/-! ## Spec-modelled prepared-statement layer

The tests in `test/src/SQLiteDatabaseTests.cpp` exercise the
`DatabaseAbstractions::SQLiteDatabase` interface — `BuildStatement` returning
`{statement, error}` and a `PreparedStatement` object with
`Step`/`FetchColumn`/`BindParameter` — whose implementation file is not under
`src/` (only the header declaration and the test callers are).  The
definitions below are therefore modelled from the spec (§4.2, §4.3, §7)
rather than translated from source; each doc comment says so. -/

/-- Result of one `PreparedStatement::Step`: `done` plus an error string that
is empty on success. -/
structure StepResult where
  done : Bool
  error : String
deriving DecidableEq, Repr

/-- Modelled from the spec: the execution state of one prepared statement.
`pending` is the sequence of result rows the engine will still emit in result
order, `current` is the row made available by the last `SQLITE_ROW` step, and
`termination` is how the statement ends after the rows are exhausted: `none`
for normal completion, `some e` when the engine rejects the operation with
(non-empty) message `e`. -/
structure StmtExec where
  pending : List (List Value)
  current : Option (List Value)
  termination : Option String
deriving DecidableEq, Repr

/-- Modelled from the spec: `PreparedStatement::Step` (§4.2).  While a result
row is pending it is emitted (`done := false`, empty error) and becomes the
current row; with no rows left the statement either completes normally
(`done := true`, empty error) or surfaces the engine's rejection
(`done := true`, non-empty error) and stays in that terminal state. -/
def step : StmtExec → StepResult × StmtExec
  | ⟨r :: rest, _, t⟩ => (⟨false, ""⟩, ⟨rest, some r, t⟩)
  | ⟨[], _, none⟩ => (⟨true, ""⟩, ⟨[], none, none⟩)
  | ⟨[], _, some e⟩ => (⟨true, e⟩, ⟨[], none, some e⟩)

/-- Iterate `step` and collect the results in order. -/
def stepTrace (st : StmtExec) : Nat → List StepResult
  | 0 => []
  | n + 1 =>
    let r := step st
    r.1 :: stepTrace r.2 n

/-- The statement state after `n` steps. -/
def stepN (st : StmtExec) : Nat → StmtExec
  | 0 => st
  | n + 1 => stepN (step st).2 n

/-- Modelled from the spec: the conversion of a non-NULL engine value to a
requested integer (SQLite's `sqlite3_column_int64`; text parsing is not
modelled and yields 0, which no claim depends on). -/
def Value.toInt : Value → Int
  | .integer i => i
  | .boolean b => if b then 1 else 0
  | _ => 0

/-- Modelled from the spec: the textual rendering of a non-NULL engine value
(SQLite's `sqlite3_column_text`). -/
def Value.toText : Value → String
  | .text s => s
  | .integer i => toString i
  | _ => ""

/-- Modelled from the spec: convert a (non-NULL) underlying engine value into
exactly the requested type, as the typed extraction contract demands. -/
def convertTo : ValueType → Value → Value
  | .null, _ => .null
  | .boolean, v => .boolean (v.toInt ≠ 0)
  | .integer, v => .integer v.toInt
  | .real, v => .real (match v with | .real bits => bits | _ => 0)
  | .text, v => .text v.toText

/-- Modelled from the spec: `PreparedStatement::FetchColumn(index,
expectedType)` (§4.2).  The implementation must first test whether the
underlying column of the current row is SQL NULL — returning `Value.null`
regardless of `expectedType` — and only otherwise perform the native
conversion to the requested type.  Calling outside a row state is a contract
violation; the model returns `Value.null` there. -/
def fetchColumn (st : StmtExec) (index : Nat) (expectedType : ValueType) : Value :=
  match st.current with
  | none => Value.null
  | some row =>
    let underlying := row.getD index Value.null
    if underlying = Value.null then Value.null
    else convertTo expectedType underlying

/-- `BuildStatementResults` from the `DatabaseAbstractions` interface: an
optional usable statement plus an error string. -/
structure BuildStatementResults where
  statement : Option StmtExec
  error : String
deriving DecidableEq, Repr

/-- Modelled from the spec: `SQLiteDatabase::BuildStatement(sql)` (§4.3).
The engine either hands back a compiled statement (`compiled = some st`) or
reports a compile failure whose message text `engineError` SQLite guarantees
to be non-empty; on success the error field is empty and on failure no
statement is returned. -/
def buildStatement (compiled : Option StmtExec) (engineError : String) :
    BuildStatementResults :=
  match compiled with
  | some st => { statement := some st, error := "" }
  | none => { statement := none, error := engineError }

/-- The exactly-one shape of a `BuildStatementResults`: a usable statement
with an empty error, or no statement with a non-empty error — never both. -/
def exactlyOneResult (r : BuildStatementResults) : Prop :=
  (r.statement.isSome ∧ r.error = "") ∨ (r.statement = none ∧ r.error ≠ "")

/-! ## Concrete fixtures

Small concrete stores (patterned after the unit-test database) used to
evaluate the member functions at specific inputs. -/

/-- A one-column table definition: `k TEXT PRIMARY KEY`. -/
def oneColumnDef : TableDefinition := ⟨[⟨"k", "TEXT", true⟩]⟩

/-- A store whose only table `t` has the single column `k` and two rows,
with cache and engine in agreement (as right after `Open`). -/
def oneColumnDb : SQLiteDatabaseState :=
  { engine :=
      { main := [("t", ⟨oneColumnDef.columnDefinitions, [[Value.text "a"], [Value.text "b"]]⟩)],
        temp := [],
        inTxn := false },
    tables := [("t", oneColumnDef)] }

/-- A three-column table definition patterned after the tests' `npcs` table. -/
def npcsDef : TableDefinition :=
  ⟨[⟨"entity", "INT", true⟩, ⟨"name", "TEXT", false⟩, ⟨"job", "TEXT", false⟩]⟩

/-- The engine-side `npcs` table with two rows. -/
def npcsTable : Table :=
  ⟨npcsDef.columnDefinitions,
   [[Value.integer 1, Value.text "Alex", Value.text "Armorer"],
    [Value.integer 2, Value.text "Bob", Value.text "Banker"]]⟩

/-- A store holding only `npcs`, cache and engine in agreement. -/
def npcsDb : SQLiteDatabaseState :=
  { engine := { main := [("npcs", npcsTable)], temp := [], inTxn := false },
    tables := [("npcs", npcsDef)] }

/-- The `npcs` table after column `job` is removed engine-side: surviving
columns in original order, every row keeping its other values. -/
def npcsTableNoJob : Table :=
  ⟨[⟨"entity", "INT", true⟩, ⟨"name", "TEXT", false⟩],
   [[Value.integer 1, Value.text "Alex"],
    [Value.integer 2, Value.text "Bob"]]⟩

/-! ## Helper lemmas on the schema/engine model -/

theorem findTable?_append (l l' : Schema) (n : String) :
    findTable? (l ++ l') n =
      match findTable? l n with
      | some t => some t
      | none => findTable? l' n := by
  induction l with
  | nil => rfl
  | cons e rest ih =>
    obtain ⟨k, t⟩ := e
    by_cases h : k = n <;> simp [findTable?, h, ih]

theorem findTable?_eq_none_iff (l : Schema) (n : String) :
    findTable? l n = none ↔ ∀ e ∈ l, e.1 ≠ n := by
  induction l with
  | nil => simp [findTable?]
  | cons e rest ih =>
    obtain ⟨k, t⟩ := e
    by_cases h : k = n <;> simp [findTable?, h, ih]

theorem findTable?_removeTable_self (l : Schema) (n : String) :
    findTable? (removeTable l n) n = none := by
  rw [findTable?_eq_none_iff]
  intro e he
  have := List.of_mem_filter he
  simpa using this

theorem findTable?_removeTable_ne (l : Schema) (m n : String) (h : m ≠ n) :
    findTable? (removeTable l n) m = findTable? l m := by
  induction l with
  | nil => rfl
  | cons e rest ih =>
    obtain ⟨k, t⟩ := e
    by_cases hk : k = n
    · subst hk
      have hkm : ¬ (k = m) := fun hc => h (hc ▸ rfl)
      simp [removeTable, List.filter_cons, findTable?, hkm] at ih ⊢
      exact ih
    · by_cases hkm : k = m
      · simp [removeTable, List.filter_cons, findTable?, hk, hkm, h]
      · simp [removeTable, List.filter_cons, findTable?, hk, hkm, h] at ih ⊢
        exact ih

theorem removeTable_append (l l' : Schema) (n : String) :
    removeTable (l ++ l') n = removeTable l n ++ removeTable l' n := by
  simp [removeTable, List.filter_append]

theorem removeTable_eq_self (l : Schema) (n : String) (h : findTable? l n = none) :
    removeTable l n = l := by
  rw [findTable?_eq_none_iff] at h
  exact List.filter_eq_self.mpr (fun e he => by simpa using h e he)

theorem setTable_append_of_none (l l' : Schema) (n : String) (t : Table)
    (h : findTable? l n = none) :
    setTable (l ++ l') n t = l ++ setTable l' n t := by
  rw [findTable?_eq_none_iff] at h
  simp only [setTable, List.map_append]
  congr 1
  conv_rhs => rw [← List.map_id l]
  apply List.map_congr_left
  intro e he
  simp [h e he]

theorem setTable_cons_self (rest : Schema) (n : String) (x t : Table) :
    setTable ((n, x) :: rest) n t = (n, t) :: setTable rest n t := by
  simp [setTable]

theorem strMem_iff (n : String) (l : List String) : strMem n l = true ↔ n ∈ l := by
  induction l with
  | nil => simp [strMem]
  | cons s rest ih =>
    simp only [strMem]
    by_cases h : s = n
    · simp [h]
    · have h' : ¬ (n = s) := fun hc => h hc.symm
      simp [h, h', ih]

theorem allMem_iff (ns l : List String) : allMem ns l = true ↔ ∀ n ∈ ns, n ∈ l := by
  induction ns with
  | nil => simp [allMem]
  | cons n rest ih => simp [allMem, strMem_iff, ih]

theorem allMem_self (l : List String) : allMem l l = true :=
  (allMem_iff l l).mpr (fun _ h => h)

theorem colNames_cons (c : ColumnDefinition) (cs : List ColumnDefinition) :
    colNames (c :: cs) = c.name :: colNames cs := rfl

theorem colNames_filter_sublist (cols : List ColumnDefinition) (p : ColumnDefinition → Bool) :
    List.Sublist (colNames (cols.filter p)) (colNames cols) := by
  simpa only [colNames] using List.Sublist.map (fun c => c.name) (List.filter_sublist (p := p) cols)

theorem colNames_filter_nodup (cols : List ColumnDefinition) (p : ColumnDefinition → Bool)
    (h : (colNames cols).Nodup) : (colNames (cols.filter p)).Nodup :=
  h.sublist (colNames_filter_sublist cols p)

theorem mem_colNames_filter (cols : List ColumnDefinition) (p : ColumnDefinition → Bool)
    (n : String) (h : n ∈ colNames (cols.filter p)) : n ∈ colNames cols :=
  (colNames_filter_sublist cols p).mem h

theorem map_colValue_cons (ns : List String) (col : ColumnDefinition)
    (cs : List ColumnDefinition) (v : Value) (vs : List Value)
    (h : ∀ n ∈ ns, n ≠ col.name) :
    ns.map (colValue (col :: cs) (v :: vs)) = ns.map (colValue cs vs) := by
  apply List.map_congr_left
  intro n hn
  have hne : ¬ (col.name = n) := fun hc => (h n hn) hc.symm
  simp [colValue, hne]

theorem selectCols_cons_of_ne (ns : List String) (col : ColumnDefinition)
    (cs : List ColumnDefinition) (v : Value) (vs : List Value)
    (h : ∀ n ∈ ns, n ≠ col.name) :
    selectCols (col :: cs) (v :: vs) ns = selectCols cs vs ns :=
  map_colValue_cons ns col cs v vs h

theorem selectCols_self (cols : List ColumnDefinition) (row : List Value)
    (hnodup : (colNames cols).Nodup) (hlen : row.length = cols.length) :
    selectCols cols row (colNames cols) = row := by
  induction cols generalizing row with
  | nil =>
    cases row with
    | nil => rfl
    | cons v vs => simp at hlen
  | cons col cs ih =>
    cases row with
    | nil => simp at hlen
    | cons v vs =>
      rw [colNames_cons] at hnodup
      rw [List.nodup_cons] at hnodup
      obtain ⟨hhead, htail⟩ := hnodup
      have hlen' : vs.length = cs.length := by simpa using hlen
      have hne : ∀ n ∈ colNames cs, n ≠ col.name := fun n hn hc => hhead (hc ▸ hn)
      rw [colNames_cons]
      simp only [selectCols, List.map_cons]
      rw [List.cons.injEq]
      refine ⟨by simp [colValue], ?_⟩
      have hrw := selectCols_cons_of_ne (colNames cs) col cs v vs hne
      simp only [selectCols] at hrw
      rw [hrw]
      exact ih vs htail hlen'

theorem selectCols_keep (cols : List ColumnDefinition) (row : List Value) (c : String)
    (hnodup : (colNames cols).Nodup) (hlen : row.length = cols.length) :
    selectCols cols row (colNames (cols.filter (fun x => x.name ≠ c))) = keepRow cols row c := by
  induction cols generalizing row with
  | nil =>
    cases row with
    | nil => rfl
    | cons v vs => simp at hlen
  | cons col cs ih =>
    cases row with
    | nil => simp at hlen
    | cons v vs =>
      rw [colNames_cons] at hnodup
      rw [List.nodup_cons] at hnodup
      obtain ⟨hhead, htail⟩ := hnodup
      have hlen' : vs.length = cs.length := by simpa using hlen
      have hne : ∀ n ∈ colNames (cs.filter (fun x => x.name ≠ c)), n ≠ col.name :=
        fun n hn hc => hhead (hc ▸ mem_colNames_filter cs _ n hn)
      by_cases hcol : col.name = c
      · have hfil : (col :: cs).filter (fun x => x.name ≠ c) = cs.filter (fun x => x.name ≠ c) := by
          simp [List.filter_cons, hcol]
        rw [hfil]
        simp only [keepRow, if_pos hcol]
        calc selectCols (col :: cs) (v :: vs) (colNames (cs.filter (fun x => x.name ≠ c)))
            = selectCols cs vs (colNames (cs.filter (fun x => x.name ≠ c))) :=
              selectCols_cons_of_ne _ col cs v vs hne
          _ = keepRow cs vs c := ih vs htail hlen'
      · have hfil : (col :: cs).filter (fun x => x.name ≠ c) = col :: cs.filter (fun x => x.name ≠ c) := by
          simp [List.filter_cons, hcol]
        rw [hfil, colNames_cons]
        simp only [keepRow, if_neg hcol, selectCols, List.map_cons]
        rw [List.cons.injEq]
        refine ⟨by simp [colValue], ?_⟩
        have hrw := selectCols_cons_of_ne (colNames (cs.filter (fun x => x.name ≠ c))) col cs v vs hne
        simp only [selectCols] at hrw
        rw [hrw]
        exact ih vs htail hlen'

theorem keyNames_bare (keep : List ColumnDefinition) :
    keyNames (keep.map (fun c => ⟨c.name, "", false⟩)) = [] := by
  simp [keyNames, colNames, List.filter_eq_nil_iff]

theorem colNames_bare (keep : List ColumnDefinition) :
    colNames (keep.map (fun c => (⟨c.name, "", false⟩ : ColumnDefinition))) = colNames keep := by
  simp [colNames, List.map_map]

/-! ## Further helper lemmas for the prepared-statement model -/

theorem stepTrace_query (rows : List (List Value)) (cur : Option (List Value)) :
    stepTrace ⟨rows, cur, none⟩ (rows.length + 1)
      = List.replicate rows.length ⟨false, ""⟩ ++ [⟨true, ""⟩] := by
  induction rows generalizing cur with
  | nil => simp [stepTrace, step]
  | cons r rest ih =>
    simp only [stepTrace, step, List.length_cons, List.replicate_succ, List.cons_append]
    rw [List.cons.injEq]
    exact ⟨rfl, ih (some r)⟩

theorem stepN_current (rows : List (List Value)) (cur : Option (List Value))
    (k : Nat) (hk : k < rows.length) :
    (stepN ⟨rows, cur, none⟩ (k + 1)).current = some (rows.get ⟨k, hk⟩) := by
  induction rows generalizing cur k with
  | nil => simp at hk
  | cons r rest ih =>
    cases k with
    | zero => simp [stepN, step]
    | succ k' =>
      have hk' : k' < rest.length := by simpa using hk
      simpa [stepN, step] using ih (some r) k' hk'

/-! ## Claim theorems -/

/-- C2: for every two stores holding identical schema and row content (equal
`main` table lists, however each store got there), `CreateSnapshot` yields
byte-identical blobs.  This holds degenerately: the source's
`CreateSnapshot` body is `return {}`, the empty blob, for every store. -/
theorem createSnapshot_deterministic (s1 s2 : SQLiteDatabaseState)
    (_h : s1.engine.main = s2.engine.main) :
    createSnapshot s1 = createSnapshot s2 := rfl

theorem createSnapshot_deterministic_witness :
    createSnapshot npcsDb = createSnapshot { npcsDb with tables := [] } :=
  createSnapshot_deterministic npcsDb { npcsDb with tables := [] } rfl

/-- C4: when the cached definitions have no table of the given name, or the
named column is not among that table's cached columns, `DestroyColumn`
returns before issuing any statement: no error is reported and the whole
store state (cache and engine, hence schema and every row) is unchanged. -/
theorem destroyColumn_noop_when_absent (db : SQLiteDatabaseState)
    (tableName columnName : String)
    (h : findDef? db.tables tableName = none
      ∨ ∃ d, findDef? db.tables tableName = some d
          ∧ ∀ c ∈ d.columnDefinitions, c.name ≠ columnName) :
    destroyColumnOp db tableName columnName = db := by
  unfold destroyColumnOp destroyColumnPlan
  rcases h with h | ⟨d, hd, hall⟩
  · rw [h]
  · rw [hd]
    have hany : d.columnDefinitions.any (fun c => c.name = columnName) = false := by
      simp only [List.any_eq_false, decide_eq_true_eq]
      exact hall
    simp [hany]

theorem destroyColumn_noop_when_absent_witness :
    destroyColumnOp npcsDb "ghosts" "entity" = npcsDb
    ∧ destroyColumnOp npcsDb "npcs" "mood" = npcsDb :=
  ⟨destroyColumn_noop_when_absent npcsDb "ghosts" "entity" (Or.inl (by decide)),
   destroyColumn_noop_when_absent npcsDb "npcs" "mood"
     (Or.inr ⟨npcsDef, by decide, by decide⟩)⟩

/-- C9 (code-bug evidence): `SQLiteDatabase::DestroyTable` has an empty
function body, so destroying the existing table `npcs` changes nothing — the
engine still holds the table and all its rows, and `DescribeTables` still
lists it, contradicting the claim that the table is dropped. -/
theorem destroyTable_does_nothing :
    destroyTableOp npcsDb "npcs" = npcsDb
    ∧ findTable? (destroyTableOp npcsDb "npcs").engine.main "npcs" = some npcsTable
    ∧ findDef? (describeTables (destroyTableOp npcsDb "npcs")) "npcs" = some npcsDef := by
  exact ⟨rfl, by decide, by decide⟩

/-- C5 counterexample: `CreateTable` on a freshly opened empty store leaves
the cached `DescribeTables` snapshot empty while the engine's live catalog
already lists the new table — schema-mutating operations do not rebuild the
cache, so it does not equal the engine catalog at that moment. -/
theorem createTable_leaves_cache_stale :
    describeTables (createTableOp (openDatabase ⟨[], [], false⟩) "t" oneColumnDef) = []
    ∧ readMetadataTables (createTableOp (openDatabase ⟨[], [], false⟩) "t" oneColumnDef).engine
        = [("t", oneColumnDef)] := by
  exact ⟨rfl, by decide⟩

/-- C5 amended: the cached `TableDefinitions` equals the engine catalog after
`Open` (which calls `ReadMetadata`), but none of the five schema-mutating
operations refreshes it — each returns with the cache exactly as it was, so
the cache can be stale until the next `Open`. -/
theorem cache_refreshed_only_on_open (e : EngineState) (db : SQLiteDatabaseState)
    (tableName oldName newName columnName : String)
    (defn : TableDefinition) (col : ColumnDefinition) :
    describeTables (openDatabase e) = readMetadataTables (openDatabase e).engine
    ∧ describeTables (createTableOp db tableName defn) = describeTables db
    ∧ describeTables (renameTableOp db oldName newName) = describeTables db
    ∧ describeTables (addColumnOp db tableName col) = describeTables db
    ∧ describeTables (destroyColumnOp db tableName columnName) = describeTables db
    ∧ describeTables (destroyTableOp db tableName) = describeTables db := by
  refine ⟨rfl, rfl, rfl, rfl, ?_, rfl⟩
  unfold destroyColumnOp
  cases destroyColumnPlan db.tables tableName columnName <;> rfl

/-- C7: `FetchColumn` first tests the underlying column of the current row
for SQL NULL and returns the Null variant in that case, for every requested
expected type — the null check takes precedence over the conversion. -/
theorem fetchColumn_null_precedence (st : StmtExec) (row : List Value) (index : Nat)
    (expectedType : ValueType)
    (hrow : st.current = some row)
    (hnull : row.getD index Value.null = Value.null) :
    fetchColumn st index expectedType = Value.null := by
  unfold fetchColumn
  rw [hrow]
  simp only [List.getD_eq_getElem?_getD] at hnull
  simp [hnull]

theorem fetchColumn_null_precedence_witness :
    fetchColumn ⟨[], some [Value.null], none⟩ 0 ValueType.text = Value.null
    ∧ fetchColumn ⟨[], some [Value.null], none⟩ 0 ValueType.integer = Value.null :=
  ⟨fetchColumn_null_precedence _ [Value.null] 0 ValueType.text rfl rfl,
   fetchColumn_null_precedence _ [Value.null] 0 ValueType.integer rfl rfl⟩

/-- C8: `BuildStatement` returns exactly one of a usable statement (with
empty error) or a non-empty error string — never both — and on compile
failure the error string is non-empty (SQLite's error text, which is never
empty, passed through). -/
theorem buildStatement_exactly_one (compiled : Option StmtExec) (engineError : String)
    (herr : engineError ≠ "") :
    exactlyOneResult (buildStatement compiled engineError)
    ∧ ¬ ((buildStatement compiled engineError).statement.isSome
        ∧ (buildStatement compiled engineError).error ≠ "")
    ∧ (compiled = none → (buildStatement compiled engineError).error ≠ "") := by
  cases compiled <;> simp [buildStatement, exactlyOneResult, herr]

theorem buildStatement_exactly_one_witness :
    exactlyOneResult (buildStatement none "no such table: bar")
    ∧ ¬ ((buildStatement none "no such table: bar").statement.isSome
        ∧ (buildStatement none "no such table: bar").error ≠ "")
    ∧ ((none : Option StmtExec) = none →
        (buildStatement none "no such table: bar").error ≠ "") :=
  buildStatement_exactly_one none "no such table: bar" (by decide)

/-- C6: `Step` returns `done = false` with empty error exactly when a result
row is available, `done = true` with empty error exactly on normal
completion with no more rows, and `done = true` with non-empty error exactly
when the engine rejected the operation; consequently a query matching `N`
rows yields `N` Steps with `done = false` — making the rows current in
result order — followed by one Step with `done = true`. -/
theorem step_protocol (st : StmtExec) (hterm : st.termination ≠ some "") :
    (((step st).1.done = false ∧ (step st).1.error = "") ↔ st.pending ≠ [])
    ∧ (((step st).1.done = true ∧ (step st).1.error = "")
        ↔ st.pending = [] ∧ st.termination = none)
    ∧ (((step st).1.done = true ∧ (step st).1.error ≠ "")
        ↔ st.pending = [] ∧ st.termination ≠ none)
    ∧ (∀ (rows : List (List Value)) (cur : Option (List Value)),
        stepTrace ⟨rows, cur, none⟩ (rows.length + 1)
          = List.replicate rows.length ⟨false, ""⟩ ++ [⟨true, ""⟩])
    ∧ (∀ (rows : List (List Value)) (cur : Option (List Value)) (k : Nat)
        (hk : k < rows.length),
        (stepN ⟨rows, cur, none⟩ (k + 1)).current = some (rows.get ⟨k, hk⟩)) := by
  obtain ⟨pending, cur, term⟩ := st
  refine ⟨?_, ?_, ?_, fun rows cur2 => stepTrace_query rows cur2,
    fun rows cur2 k hk => stepN_current rows cur2 k hk⟩ <;>
  · cases pending with
    | nil =>
      cases term with
      | none => simp [step]
      | some e =>
        have he : e ≠ "" := fun hc => hterm (by simp [hc])
        simp [step, he]
    | cons r rest => simp [step]

theorem step_protocol_witness :
    (step ⟨[[Value.integer 42], [Value.integer 43]], none, none⟩).1.done = false
    ∧ (step ⟨[[Value.integer 42], [Value.integer 43]], none, none⟩).1.error = "" := by
  have h := step_protocol ⟨[[Value.integer 42], [Value.integer 43]], none, none⟩ (by decide)
  exact h.1.mpr (by decide)

/-- C10: when the cached definition of a table consists of exactly one
column and `DestroyColumn` is called on that column, the generated plan is
produced — not refused — with an empty column list in both `CREATE` (a
syntax error in SQLite) and an empty select list in both `INSERT ... SELECT`
statements: there is no guard for the zero-surviving-columns case. -/
theorem destroyColumn_single_column_unguarded (tables : TableDefinitions)
    (t c ty : String) (k : Bool)
    (h : findDef? tables t = some ⟨[⟨c, ty, k⟩]⟩) :
    destroyColumnPlan tables t c
      = some [ .beginTxn, .createTable true (t ++ "_") [], .insertSelect (t ++ "_") [] t,
               .dropTable t, .createTable false t [], .insertSelect t [] (t ++ "_"),
               .dropTable (t ++ "_"), .commitTxn ]
    ∧ (destroyColumnPlan tables t c).map (List.map renderSQL)
      = some [ "BEGIN TRANSACTION",
               "CREATE TEMPORARY TABLE " ++ t ++ "_()",
               "INSERT INTO " ++ t ++ "_ SELECT  FROM " ++ t,
               "DROP TABLE " ++ t,
               "CREATE TABLE " ++ t ++ " ()",
               "INSERT INTO " ++ t ++ " SELECT  FROM " ++ t ++ "_",
               "DROP TABLE " ++ t ++ "_",
               "COMMIT" ] := by
  have h1 : destroyColumnPlan tables t c
      = some [ SQL.beginTxn, .createTable true (t ++ "_") [], .insertSelect (t ++ "_") [] t,
               .dropTable t, .createTable false t [], .insertSelect t [] (t ++ "_"),
               .dropTable (t ++ "_"), .commitTxn ] := by
    unfold destroyColumnPlan
    rw [h]
    simp [keepColumns, bareColumns, colNames, List.filter_cons]
  refine ⟨h1, ?_⟩
  rw [h1]
  simp [renderSQL, colNames, String.intercalate, String.append_assoc]

theorem destroyColumn_single_column_unguarded_witness :
    destroyColumnPlan oneColumnDb.tables "t" "k"
      = some [ .beginTxn, .createTable true "t_" [], .insertSelect "t_" [] "t",
               .dropTable "t", .createTable false "t" [], .insertSelect "t" [] "t_",
               .dropTable "t_", .commitTxn ]
    ∧ (destroyColumnPlan oneColumnDb.tables "t" "k").map (List.map renderSQL)
      = some [ "BEGIN TRANSACTION",
               "CREATE TEMPORARY TABLE t_()",
               "INSERT INTO t_ SELECT  FROM t",
               "DROP TABLE t",
               "CREATE TABLE t ()",
               "INSERT INTO t SELECT  FROM t_",
               "DROP TABLE t_",
               "COMMIT" ] := by
  have h := destroyColumn_single_column_unguarded oneColumnDb.tables "t" "k" "TEXT" true
    (by decide)
  simpa using h

/-- C1 (code-bug evidence): on a store whose table `t` has the single cached
column `k`, `DestroyColumn("t","k")` issues its statements with errors
discarded; the generated `CREATE TEMPORARY TABLE t_()` is a syntax error
(several statements fail), yet `DROP TABLE t` and `COMMIT` still run and
succeed, so the failed migration takes destructive effect — table `t` and
both of its rows are gone — instead of leaving the table untouched. -/
theorem destroyColumn_failure_not_atomic :
    (destroyColumnPlan oneColumnDb.tables "t" "k").isSome = true
    ∧ (execErrors oneColumnDb.engine
        ((destroyColumnPlan oneColumnDb.tables "t" "k").getD [])).contains true = true
    ∧ findTable? (destroyColumnOp oneColumnDb "t" "k").engine.main "t" = none
    ∧ (destroyColumnOp oneColumnDb "t" "k").engine.main = [] := by
  exact ⟨by decide, by decide, by decide, by decide⟩

/-- C3 counterexample: on the `npcs` store, `DestroyColumn("npcs","job")`
succeeds — no statement reports an error and the engine-side table has lost
`job` while keeping both rows' other values in order — yet `DescribeTables`
still lists `job` for `npcs`, because `DestroyColumn` never refreshes the
cached definitions. -/
theorem destroyColumn_describeTables_still_lists_column :
    (execErrors npcsDb.engine
        ((destroyColumnPlan npcsDb.tables "npcs" "job").getD [])).contains true = false
    ∧ findTable? (destroyColumnOp npcsDb "npcs" "job").engine.main "npcs"
        = some npcsTableNoJob
    ∧ describeTables (destroyColumnOp npcsDb "npcs" "job") = [("npcs", npcsDef)]
    ∧ (colNames npcsDef.columnDefinitions).contains "job" = true := by
  exact ⟨by decide, by decide, by decide, by decide⟩


theorem self_ne_append_underscore (s : String) : s ≠ s ++ "_" := by
  intro h
  have h2 := congrArg String.length h
  simp [String.length_append] at h2
  exact absurd h2 (by decide)

theorem bare_filter_isKey (keep : List ColumnDefinition) :
    (bareColumns keep).filter (fun col => col.isKey) = [] := by
  simp [bareColumns, List.filter_eq_nil_iff]

theorem keyNames_bareColumns (keep : List ColumnDefinition) :
    keyNames (bareColumns keep) = [] := by
  simp [keyNames, bareColumns, colNames, List.filter_eq_nil_iff]

theorem colNames_bareColumns (keep : List ColumnDefinition) :
    colNames (bareColumns keep) = colNames keep := by
  simp [colNames, bareColumns, List.map_map]

theorem findTable?_singleton_self (n : String) (t : Table) :
    findTable? [(n, t)] n = some t := by
  simp [findTable?]

theorem findTable?_singleton_ne (m n : String) (t : Table) (h : n ≠ m) :
    findTable? [(n, t)] m = none := by
  simp [findTable?, h]

theorem findTable?_append_left (l l' : Schema) (n : String) (x : Table)
    (h : findTable? l n = some x) : findTable? (l ++ l') n = some x := by
  rw [findTable?_append, h]

theorem findTable?_append_right (l l' : Schema) (n : String)
    (h : findTable? l n = none) : findTable? (l ++ l') n = findTable? l' n := by
  rw [findTable?_append, h]

theorem execSQL_begin_ok (s : EngineState) (h : s.inTxn = false) :
    execSQL s .beginTxn = ⟨{ s with inTxn := true }, false⟩ := by
  simp [execSQL, h]

theorem execSQL_commit_ok (s : EngineState) (h : s.inTxn = true) :
    execSQL s .commitTxn = ⟨{ s with inTxn := false }, false⟩ := by
  simp [execSQL, h]

theorem execSQL_createTable_ok (s : EngineState) (inTemp : Bool) (name : String)
    (cols : List ColumnDefinition)
    (h1 : findTable? (if inTemp then s.temp else s.main) name = none)
    (h2 : cols ≠ [])
    (h3 : (colNames cols).Nodup)
    (h4 : (cols.filter (fun col => col.isKey)).length < 2) :
    execSQL s (.createTable inTemp name cols)
      = ⟨if inTemp then { s with temp := s.temp ++ [(name, (⟨cols, []⟩ : Table))] }
          else { s with main := s.main ++ [(name, (⟨cols, []⟩ : Table))] }, false⟩ := by
  have h4' : ¬ 2 ≤ (cols.filter (fun col => col.isKey)).length := Nat.not_le.mpr h4
  simp only [execSQL]
  rw [if_neg (by simp [h1, h2, h3, h4'])]
  cases inTemp <;> simp

theorem execSQL_insertSelect_ok (s : EngineState) (dst src : String) (names : List String)
    (srcInTemp dstInTemp : Bool) (srcT dstT : Table)
    (hsrc : lookupTable s src = some (srcInTemp, srcT))
    (hdst : lookupTable s dst = some (dstInTemp, dstT))
    (hn1 : names ≠ [])
    (hn2 : allMem names (colNames srcT.cols) = true)
    (hn3 : names.length = dstT.cols.length)
    (hn4 : ¬ keyConflict dstT.cols
        (dstT.rows ++ srcT.rows.map (fun r => selectCols srcT.cols r names))) :
    execSQL s (.insertSelect dst names src)
      = ⟨if dstInTemp
          then { s with temp := setTable s.temp dst (⟨dstT.cols, dstT.rows ++ srcT.rows.map (fun r => selectCols srcT.cols r names)⟩ : Table) }
          else { s with main := setTable s.main dst (⟨dstT.cols, dstT.rows ++ srcT.rows.map (fun r => selectCols srcT.cols r names)⟩ : Table) },
        false⟩ := by
  simp only [execSQL, hsrc, hdst]
  rw [if_neg (by simp [hn1, hn2, hn3])]
  rw [if_neg hn4]
  cases dstInTemp <;> simp

theorem execSQL_dropTable_temp_ok (s : EngineState) (name : String) (t : Table)
    (h : findTable? s.temp name = some t) :
    execSQL s (.dropTable name) = ⟨{ s with temp := removeTable s.temp name }, false⟩ := by
  simp [execSQL, h]

theorem execSQL_dropTable_main_ok (s : EngineState) (name : String) (t : Table)
    (hT : findTable? s.temp name = none) (h : findTable? s.main name = some t) :
    execSQL s (.dropTable name) = ⟨{ s with main := removeTable s.main name }, false⟩ := by
  simp [execSQL, hT, h]

theorem destroyColumn_exec (e : EngineState) (t c : String)
    (defn : TableDefinition) (tbl : Table)
    (htbl : findTable? e.main t = some tbl)
    (hcols : tbl.cols = defn.columnDefinitions)
    (hnodup : (colNames defn.columnDefinitions).Nodup)
    (hkeep : keepColumns defn c ≠ [])
    (hkeys : ((keepColumns defn c).filter (fun col => col.isKey)).length < 2)
    (htempT : findTable? e.temp t = none)
    (htempT' : findTable? e.temp (t ++ "_") = none)
    (htxn : e.inTxn = false)
    (harity : ∀ r ∈ tbl.rows, r.length = tbl.cols.length)
    (hconflict : ¬ keyConflict (keepColumns defn c) (keptRows defn tbl.rows c)) :
    execAllIgnoringErrors e
      [ .beginTxn,
        .createTable true (t ++ "_") (bareColumns (keepColumns defn c)),
        .insertSelect (t ++ "_") (colNames (keepColumns defn c)) t,
        .dropTable t,
        .createTable false t (keepColumns defn c),
        .insertSelect t (colNames (keepColumns defn c)) (t ++ "_"),
        .dropTable (t ++ "_"),
        .commitTxn ]
    = { main := removeTable e.main t ++ [(t, (⟨keepColumns defn c, keptRows defn tbl.rows c⟩ : Table))],
         temp := e.temp,
         inTxn := false } := by
  have hne : t ≠ t ++ "_" := self_ne_append_underscore t
  have hne' : t ++ "_" ≠ t := fun h => hne h.symm
  have f2 : colNames (bareColumns (keepColumns defn c)) = colNames (keepColumns defn c) := colNames_bareColumns _
  have f3 : (bareColumns (keepColumns defn c)) ≠ [] := by
    simp [bareColumns, hkeep]
  have f4 : (colNames (bareColumns (keepColumns defn c))).Nodup := by
    rw [f2]
    exact colNames_filter_nodup _ _ hnodup
  have f6 : (colNames (keepColumns defn c)).Nodup := colNames_filter_nodup _ _ hnodup
  have f5 := bare_filter_isKey (keepColumns defn c)
  have f7 : allMem (colNames (keepColumns defn c)) (colNames tbl.cols) = true := by
    rw [hcols, allMem_iff]
    intro n hn
    exact mem_colNames_filter _ _ n hn
  have f8 : (colNames (keepColumns defn c)).length = (keepColumns defn c).length := List.length_map _ _
  have f8b : (bareColumns (keepColumns defn c)).length = (keepColumns defn c).length := List.length_map _ _
  have f10 : (colNames (keepColumns defn c)) ≠ [] := by
    simp [colNames, hkeep]
  have hproj : tbl.rows.map (fun r => selectCols tbl.cols r (colNames (keepColumns defn c))) = keptRows defn tbl.rows c := by
    unfold keptRows keepColumns
    apply List.map_congr_left
    intro r hr
    rw [hcols]
    exact selectCols_keep defn.columnDefinitions r c hnodup (hcols ▸ harity r hr)
  have hRlen : ∀ r ∈ keptRows defn tbl.rows c, r.length = (bareColumns (keepColumns defn c)).length := by
    rw [← hproj]
    intro r hr
    obtain ⟨row, hrow, rfl⟩ := List.mem_map.mp hr
    simp [selectCols, f8, f8b]
  have f9 : ∀ rows, ¬ keyConflict (bareColumns (keepColumns defn c)) rows := by
    intro rows hkc
    have hk1 := hkc.1
    rw [keyNames_bareColumns] at hk1
    exact hk1 rfl
  have hback : (keptRows defn tbl.rows c).map (fun r => selectCols (bareColumns (keepColumns defn c)) r (colNames (keepColumns defn c))) = keptRows defn tbl.rows c := by
    conv_rhs => rw [← List.map_id (keptRows defn tbl.rows c)]
    apply List.map_congr_left
    intro r hr
    rw [← f2]
    exact selectCols_self (bareColumns (keepColumns defn c)) r f4 (hRlen r hr)
  -- step 1: BEGIN TRANSACTION
  have h1 : execSQL e SQL.beginTxn = ⟨({ e with inTxn := true }), false⟩ :=
    execSQL_begin_ok e htxn
  -- step 2: CREATE TEMPORARY TABLE t_(...)
  have h2 : execSQL { e with inTxn := true } (SQL.createTable true (t ++ "_") (bareColumns (keepColumns defn c)))
      = ⟨({ e with temp := e.temp ++ [((t ++ "_"), (⟨bareColumns (keepColumns defn c), []⟩ : Table))], inTxn := true }), false⟩ := by
    have hstep := execSQL_createTable_ok { e with inTxn := true } true (t ++ "_") (bareColumns (keepColumns defn c))
      (by simpa using htempT') f3 f4 (by simp [f5])
    simpa using hstep
  -- schema facts after step 2
  have ht3a : findTable? (e.temp ++ [((t ++ "_"), (⟨bareColumns (keepColumns defn c), []⟩ : Table))]) t = none := by
    rw [findTable?_append_right _ _ _ htempT]
    exact findTable?_singleton_ne t (t ++ "_") _ hne'
  have ht3b : findTable? (e.temp ++ [((t ++ "_"), (⟨bareColumns (keepColumns defn c), []⟩ : Table))]) (t ++ "_") = some (⟨bareColumns (keepColumns defn c), []⟩ : Table) := by
    rw [findTable?_append_right _ _ _ htempT']
    exact findTable?_singleton_self _ _
  have hl1 : lookupTable { e with temp := e.temp ++ [((t ++ "_"), (⟨bareColumns (keepColumns defn c), []⟩ : Table))], inTxn := true } t
      = some (false, tbl) := by
    simp only [lookupTable]
    simp only [ht3a]
    simp [htbl]
  have hl2 : lookupTable { e with temp := e.temp ++ [((t ++ "_"), (⟨bareColumns (keepColumns defn c), []⟩ : Table))], inTxn := true } (t ++ "_")
      = some (true, (⟨bareColumns (keepColumns defn c), []⟩ : Table)) := by
    simp only [lookupTable]
    simp [ht3b]
  -- step 3: INSERT INTO t_ SELECT ... FROM t
  have hsetTemp : setTable (e.temp ++ [((t ++ "_"), (⟨bareColumns (keepColumns defn c), []⟩ : Table))]) (t ++ "_") (⟨bareColumns (keepColumns defn c), keptRows defn tbl.rows c⟩ : Table)
      = e.temp ++ [((t ++ "_"), (⟨bareColumns (keepColumns defn c), keptRows defn tbl.rows c⟩ : Table))] := by
    rw [setTable_append_of_none _ _ _ _ htempT']
    congr 1
    simp [setTable]
  have h3 : execSQL { e with temp := e.temp ++ [((t ++ "_"), (⟨bareColumns (keepColumns defn c), []⟩ : Table))], inTxn := true }
      (SQL.insertSelect (t ++ "_") (colNames (keepColumns defn c)) t)
      = ⟨({ e with temp := e.temp ++ [((t ++ "_"), (⟨bareColumns (keepColumns defn c), keptRows defn tbl.rows c⟩ : Table))], inTxn := true }), false⟩ := by
    have hstep := execSQL_insertSelect_ok
      { e with temp := e.temp ++ [((t ++ "_"), (⟨bareColumns (keepColumns defn c), []⟩ : Table))], inTxn := true }
      (t ++ "_") t (colNames (keepColumns defn c)) false true tbl (⟨bareColumns (keepColumns defn c), []⟩ : Table) hl1 hl2 f10 f7 (by rw [f8, ← f8b]) (f9 _)
    rw [hstep]
    simp [hproj, hsetTemp]
  -- step 4: DROP TABLE t
  have ht4a : findTable? (e.temp ++ [((t ++ "_"), (⟨bareColumns (keepColumns defn c), keptRows defn tbl.rows c⟩ : Table))]) t = none := by
    rw [findTable?_append_right _ _ _ htempT]
    exact findTable?_singleton_ne t (t ++ "_") _ hne'
  have ht4b : findTable? (e.temp ++ [((t ++ "_"), (⟨bareColumns (keepColumns defn c), keptRows defn tbl.rows c⟩ : Table))]) (t ++ "_") = some (⟨bareColumns (keepColumns defn c), keptRows defn tbl.rows c⟩ : Table) := by
    rw [findTable?_append_right _ _ _ htempT']
    exact findTable?_singleton_self _ _
  have h4 : execSQL { e with temp := e.temp ++ [((t ++ "_"), (⟨bareColumns (keepColumns defn c), keptRows defn tbl.rows c⟩ : Table))], inTxn := true }
      (SQL.dropTable t)
      = ⟨({ e with main := removeTable e.main t, temp := e.temp ++ [((t ++ "_"), (⟨bareColumns (keepColumns defn c), keptRows defn tbl.rows c⟩ : Table))], inTxn := true }), false⟩ := by
    have hstep := execSQL_dropTable_main_ok
      { e with temp := e.temp ++ [((t ++ "_"), (⟨bareColumns (keepColumns defn c), keptRows defn tbl.rows c⟩ : Table))], inTxn := true }
      t tbl (by simpa using ht4a) (by simpa using htbl)
    simpa using hstep
  -- step 5: CREATE TABLE t (...)
  have h5 : execSQL { e with main := removeTable e.main t, temp := e.temp ++ [((t ++ "_"), (⟨bareColumns (keepColumns defn c), keptRows defn tbl.rows c⟩ : Table))], inTxn := true }
      (SQL.createTable false t (keepColumns defn c))
      = ⟨({ e with main := removeTable e.main t ++ [(t, (⟨keepColumns defn c, []⟩ : Table))], temp := e.temp ++ [((t ++ "_"), (⟨bareColumns (keepColumns defn c), keptRows defn tbl.rows c⟩ : Table))], inTxn := true }), false⟩ := by
    have hstep := execSQL_createTable_ok
      { e with main := removeTable e.main t, temp := e.temp ++ [((t ++ "_"), (⟨bareColumns (keepColumns defn c), keptRows defn tbl.rows c⟩ : Table))], inTxn := true }
      false t (keepColumns defn c) (by simpa using findTable?_removeTable_self e.main t) hkeep f6 hkeys
    simpa using hstep
  -- lookups for step 6
  have ht6c : findTable? (removeTable e.main t ++ [(t, (⟨keepColumns defn c, []⟩ : Table))]) t = some (⟨keepColumns defn c, []⟩ : Table) := by
    rw [findTable?_append_right _ _ _ (findTable?_removeTable_self e.main t)]
    exact findTable?_singleton_self _ _
  have hl3 : lookupTable { e with main := removeTable e.main t ++ [(t, (⟨keepColumns defn c, []⟩ : Table))], temp := e.temp ++ [((t ++ "_"), (⟨bareColumns (keepColumns defn c), keptRows defn tbl.rows c⟩ : Table))], inTxn := true } (t ++ "_")
      = some (true, (⟨bareColumns (keepColumns defn c), keptRows defn tbl.rows c⟩ : Table)) := by
    simp only [lookupTable]
    simp [ht4b]
  have hl4 : lookupTable { e with main := removeTable e.main t ++ [(t, (⟨keepColumns defn c, []⟩ : Table))], temp := e.temp ++ [((t ++ "_"), (⟨bareColumns (keepColumns defn c), keptRows defn tbl.rows c⟩ : Table))], inTxn := true } t
      = some (false, (⟨keepColumns defn c, []⟩ : Table)) := by
    simp only [lookupTable]
    simp only [ht4a]
    simp [ht6c]
  -- step 6: INSERT INTO t SELECT ... FROM t_
  have hconflict2 : ¬ keyConflict (keepColumns defn c) ((keptRows defn tbl.rows c).map (fun r => selectCols (bareColumns (keepColumns defn c)) r (colNames (keepColumns defn c)))) := by
    rw [hback]
    exact hconflict
  have hsetMain : setTable (removeTable e.main t ++ [(t, (⟨keepColumns defn c, []⟩ : Table))]) t (⟨keepColumns defn c, keptRows defn tbl.rows c⟩ : Table)
      = removeTable e.main t ++ [(t, (⟨keepColumns defn c, keptRows defn tbl.rows c⟩ : Table))] := by
    rw [setTable_append_of_none _ _ _ _ (findTable?_removeTable_self e.main t)]
    congr 1
    simp [setTable]
  have h6 : execSQL { e with main := removeTable e.main t ++ [(t, (⟨keepColumns defn c, []⟩ : Table))], temp := e.temp ++ [((t ++ "_"), (⟨bareColumns (keepColumns defn c), keptRows defn tbl.rows c⟩ : Table))], inTxn := true }
      (SQL.insertSelect t (colNames (keepColumns defn c)) (t ++ "_"))
      = ⟨({ e with main := removeTable e.main t ++ [(t, (⟨keepColumns defn c, keptRows defn tbl.rows c⟩ : Table))], temp := e.temp ++ [((t ++ "_"), (⟨bareColumns (keepColumns defn c), keptRows defn tbl.rows c⟩ : Table))], inTxn := true }), false⟩ := by
    have hstep := execSQL_insertSelect_ok
      { e with main := removeTable e.main t ++ [(t, (⟨keepColumns defn c, []⟩ : Table))], temp := e.temp ++ [((t ++ "_"), (⟨bareColumns (keepColumns defn c), keptRows defn tbl.rows c⟩ : Table))], inTxn := true }
      t (t ++ "_") (colNames (keepColumns defn c)) true false (⟨bareColumns (keepColumns defn c), keptRows defn tbl.rows c⟩ : Table) (⟨keepColumns defn c, []⟩ : Table) hl3 hl4 f10
      (by rw [colNames_bareColumns]; exact allMem_self _) f8 (by simpa using hconflict2)
    rw [hstep]
    simp [hback, hsetMain]
  -- step 7: DROP TABLE t_
  have hremTemp : removeTable (e.temp ++ [((t ++ "_"), (⟨bareColumns (keepColumns defn c), keptRows defn tbl.rows c⟩ : Table))]) (t ++ "_") = e.temp := by
    rw [removeTable_append, removeTable_eq_self _ _ htempT']
    simp [removeTable]
  have h7 : execSQL { e with main := removeTable e.main t ++ [(t, (⟨keepColumns defn c, keptRows defn tbl.rows c⟩ : Table))], temp := e.temp ++ [((t ++ "_"), (⟨bareColumns (keepColumns defn c), keptRows defn tbl.rows c⟩ : Table))], inTxn := true }
      (SQL.dropTable (t ++ "_"))
      = ⟨({ e with main := removeTable e.main t ++ [(t, (⟨keepColumns defn c, keptRows defn tbl.rows c⟩ : Table))], temp := e.temp, inTxn := true }), false⟩ := by
    have hstep := execSQL_dropTable_temp_ok
      { e with main := removeTable e.main t ++ [(t, (⟨keepColumns defn c, keptRows defn tbl.rows c⟩ : Table))], temp := e.temp ++ [((t ++ "_"), (⟨bareColumns (keepColumns defn c), keptRows defn tbl.rows c⟩ : Table))], inTxn := true }
      (t ++ "_") (⟨bareColumns (keepColumns defn c), keptRows defn tbl.rows c⟩ : Table) (by simpa using ht4b)
    rw [hstep]
    simp [hremTemp]
  -- step 8: COMMIT
  have h8 : execSQL { e with main := removeTable e.main t ++ [(t, (⟨keepColumns defn c, keptRows defn tbl.rows c⟩ : Table))], temp := e.temp, inTxn := true } SQL.commitTxn
      = ⟨({ e with main := removeTable e.main t ++ [(t, (⟨keepColumns defn c, keptRows defn tbl.rows c⟩ : Table))], temp := e.temp, inTxn := false }), false⟩ :=
    execSQL_commit_ok _ rfl
  simp only [execAllIgnoringErrors, List.foldl, h1, h2, h3, h4, h5, h6, h7, h8]


/-- C3 amended: when `DestroyColumn(t, c)` succeeds (cached definition and
engine table agree, column names are distinct, at least one column survives,
at most one surviving column is a key, no `t_`/`t` name shadowing in `temp`,
no open transaction, rows aligned, no key conflict among projected rows),
the ENGINE table `t` afterwards holds exactly the surviving columns in their
original relative order and every row projected onto the surviving columns —
same row count, original values — and every other table is untouched; but
`DescribeTables` still returns the unrefreshed cache, so it still lists `c`
for `t` until the store is reopened. -/
theorem destroyColumn_rebuild_correct (db : SQLiteDatabaseState) (t c : String)
    (defn : TableDefinition) (tbl : Table)
    (hdef : findDef? db.tables t = some defn)
    (hfound : defn.columnDefinitions.any (fun col => col.name = c) = true)
    (htbl : findTable? db.engine.main t = some tbl)
    (hcols : tbl.cols = defn.columnDefinitions)
    (hnodup : (colNames defn.columnDefinitions).Nodup)
    (hkeep : keepColumns defn c ≠ [])
    (hkeys : ((keepColumns defn c).filter (fun col => col.isKey)).length < 2)
    (htempT : findTable? db.engine.temp t = none)
    (htempT' : findTable? db.engine.temp (t ++ "_") = none)
    (htxn : db.engine.inTxn = false)
    (harity : ∀ r ∈ tbl.rows, r.length = tbl.cols.length)
    (hconflict : ¬ keyConflict (keepColumns defn c) (keptRows defn tbl.rows c)) :
    findTable? (destroyColumnOp db t c).engine.main t = some (⟨keepColumns defn c, keptRows defn tbl.rows c⟩ : Table)
    ∧ (∀ t', t' ≠ t → findTable? (destroyColumnOp db t c).engine.main t'
        = findTable? db.engine.main t')
    ∧ (destroyColumnOp db t c).engine.temp = db.engine.temp
    ∧ (destroyColumnOp db t c).engine.inTxn = false
    ∧ (keptRows defn tbl.rows c).length = tbl.rows.length
    ∧ describeTables (destroyColumnOp db t c) = db.tables := by
  have hplan : destroyColumnPlan db.tables t c
      = some [ .beginTxn,
               .createTable true (t ++ "_") (bareColumns (keepColumns defn c)),
               .insertSelect (t ++ "_") (colNames (keepColumns defn c)) t,
               .dropTable t,
               .createTable false t (keepColumns defn c),
               .insertSelect t (colNames (keepColumns defn c)) (t ++ "_"),
               .dropTable (t ++ "_"),
               .commitTxn ] := by
    unfold destroyColumnPlan
    rw [hdef]
    simp [hfound]
  have hop : destroyColumnOp db t c
      = { db with engine := execAllIgnoringErrors db.engine [ .beginTxn, .createTable true (t ++ "_") (bareColumns (keepColumns defn c)), .insertSelect (t ++ "_") (colNames (keepColumns defn c)) t, .dropTable t, .createTable false t (keepColumns defn c), .insertSelect t (colNames (keepColumns defn c)) (t ++ "_"), .dropTable (t ++ "_"), .commitTxn ] } := by
    unfold destroyColumnOp
    rw [hplan]
  have hexec := destroyColumn_exec db.engine t c defn tbl htbl hcols hnodup hkeep hkeys
    htempT htempT' htxn harity hconflict
  rw [hop, hexec]
  refine ⟨?_, ?_, rfl, rfl, by simp [keptRows], rfl⟩
  · rw [findTable?_append_right _ _ _ (findTable?_removeTable_self db.engine.main t)]
    exact findTable?_singleton_self _ _
  · intro t' ht'
    rw [findTable?_append]
    rw [findTable?_removeTable_ne _ _ _ ht']
    cases hf : findTable? db.engine.main t' with
    | some x => rfl
    | none =>
      exact findTable?_singleton_ne t' t _ (fun hc => ht' hc.symm)

theorem destroyColumn_rebuild_correct_witness :
    findTable? (destroyColumnOp npcsDb "npcs" "job").engine.main "npcs"
      = some (⟨keepColumns npcsDef "job", keptRows npcsDef npcsTable.rows "job"⟩ : Table)
    ∧ describeTables (destroyColumnOp npcsDb "npcs" "job") = npcsDb.tables := by
  have h := destroyColumn_rebuild_correct npcsDb "npcs" "job" npcsDef npcsTable
    (by decide) (by decide) (by decide) (by decide) (by decide) (by decide)
    (by decide) (by decide) (by decide) rfl (by decide) (by decide)
  exact ⟨h.1, h.2.2.2.2.2⟩

end SQLiteAbstractions
